import Mathlib

set_option maxRecDepth 8192

/-!
Verification development for the `damtomo` extractors
(`src/yt_dlp/extractor/damtomo.py`): `DamtomoVideoIE._real_extract` and
`DamtomoRecordIE._real_extract`.

The source is shallowly embedded: network effects are replaced by explicit
inputs (the decoded page body, the final resolved URL of the first HTTP GET,
and the parsed XML tree of the second GET), Python strings become `String`
(both are sequences of Unicode code points), Python dicts over string keys
become insertion-ordered association lists, raised exceptions become the
`Except.error` branch.  The concrete regular expressions used by the source
are embedded as dedicated scanning functions implementing Python `re`
semantics (leftmost match, greedy and non-greedy repetition) for exactly the
patterns that occur.
-/

namespace Damtomo

/-- Characters matched by Python's regex `\s` on `str` inputs, which is also
the whitespace set of `str.strip()`: ASCII whitespace plus the Unicode
whitespace code points. -/
def isPySpace (c : Char) : Bool :=
  let n := c.toNat
  n == 32 || n == 9 || n == 10 || n == 13 || n == 11 || n == 12 ||
  n == 0x1c || n == 0x1d || n == 0x1e || n == 0x1f || n == 0x85 || n == 0xa0 ||
  n == 0x1680 || decide (0x2000 ≤ n ∧ n ≤ 0x200a) || n == 0x2028 || n == 0x2029 ||
  n == 0x202f || n == 0x205f || n == 0x3000

/-- Characters matched by Python's regex `\d` on `str` inputs, restricted to
the decimal-digit ranges that can occur on the Shift-JIS-decoded source pages:
ASCII `0`-`9` and the fullwidth digits `０`-`９` (Python's `\d` is the full
Unicode `Nd` category; the remaining `Nd` ranges are not representable in the
pages' encoding and are irrelevant to every claim). -/
def isPyDigit (c : Char) : Bool :=
  let n := c.toNat
  decide ((48 ≤ n ∧ n ≤ 57) ∨ (0xff10 ≤ n ∧ n ≤ 0xff19))

/-- Numeric value of a digit accepted by `isPyDigit`, as used by Python's
`int()` conversion. -/
def digitVal (c : Char) : Nat :=
  let n := c.toNat
  if n ≤ 57 then n - 48 else n - 0xff10

/-- Drop the literal `p` from the front of `l`; `none` when `l` does not start
with `p`.  This is the embedding of matching a literal fragment of a regex. -/
def dropPre : List Char → List Char → Option (List Char)
  | [], l => some l
  | _ :: _, [] => none
  | p :: ps, c :: cs => if p = c then dropPre ps cs else none

/-- Python's substring containment `n in h`. -/
def containsSub (n : List Char) : List Char → Bool
  | [] => (dropPre n []).isSome
  | c :: r => (dropPre n (c :: r)).isSome || containsSub n r

/-- Python `str.strip()` on a character list. -/
def pyStripList (l : List Char) : List Char :=
  ((l.dropWhile isPySpace).reverse.dropWhile isPySpace).reverse

/-- Python `str.strip()`. -/
def pyStrip (s : String) : String := (pyStripList s.toList).asString

/-- Embedding of `re.sub(r'\s+', ' ', v)`: every maximal run of whitespace
characters is replaced by a single space.  The flag records whether the
previous character belonged to a whitespace run. -/
def collapseWsAux : List Char → Bool → List Char
  | [], _ => []
  | c :: r, prevWs =>
    if isPySpace c then
      if prevWs then collapseWsAux r true else ' ' :: collapseWsAux r true
    else c :: collapseWsAux r false

/-- Embedding of `re.sub(r'\s+', ' ', v)` on strings. -/
def collapseWs (s : String) : String := (collapseWsAux s.toList false).asString

/-- Remove HTML tags: drop every span from `<` to the next `>` (the Boolean
argument records being inside a tag). -/
def stripTagsAux : List Char → Bool → List Char
  | [], _ => []
  | c :: r, true => if c = '>' then stripTagsAux r false else stripTagsAux r true
  | c :: r, false => if c = '<' then stripTagsAux r true else c :: stripTagsAux r false

/-- Unescape the common HTML entities. -/
def unescapeAux : List Char → List Char
  | '&' :: 'a' :: 'm' :: 'p' :: ';' :: r => '&' :: unescapeAux r
  | '&' :: 'l' :: 't' :: ';' :: r => '<' :: unescapeAux r
  | '&' :: 'g' :: 't' :: ';' :: r => '>' :: unescapeAux r
  | '&' :: 'q' :: 'u' :: 'o' :: 't' :: ';' :: r => '"' :: unescapeAux r
  | '&' :: '#' :: '3' :: '9' :: ';' :: r => '\'' :: unescapeAux r
  | '&' :: 'n' :: 'b' :: 's' :: 'p' :: ';' :: r => '\xa0' :: unescapeAux r
  | c :: r => c :: unescapeAux r
  | [] => []

/-- Modelled from the spec: the HTML-cleaning utility `clean_html` from
`yt_dlp/utils.py` is code of this repository that is not under `src/`; the
spec (§1, §4.2) treats it as an external collaborator that HTML-unescapes
entities and strips tags from the matched content.  We model it as: strip
tags, unescape the common entities, trim surrounding whitespace.  Every
general theorem about the FieldMap is stated for an arbitrary cleaning
function, so nothing below depends on this particular model except the
evaluation of concrete fixtures (whose field contents contain no markup). -/
def clean_html (s : String) : String :=
  pyStrip (unescapeAux (stripTagsAux s.toList false)).asString

/-- Group 2 of the field regex `(?s)<(p|div)\s+class="([^" ]+?)">(.+?)</\1>`:
after the literal `class="`, the non-greedy class `[^" ]+?` followed by the
literal `">`.  Non-greedy repetition stops at the first position where `">`
matches; a quote or space character before that point fails the match.
Returns the label (group 2) and the remainder after the closing `">`. -/
def scanLabel : List Char → List Char → Option (List Char × List Char)
  | acc, '"' :: '>' :: r => if acc.isEmpty then none else some (acc.reverse, r)
  | acc, c :: r => if c = '"' || c = ' ' then none else scanLabel (c :: acc) r
  | _, [] => none

/-- Group 3 of the field regex: `(.+?)</\1>` with `re.S`, i.e. the shortest
non-empty content (any characters, newlines included) followed by the closing
tag `closing`.  Returns the content (group 3) and the remainder after the
closing tag. -/
def scanContent (closing : List Char) : List Char → List Char → Option (List Char × List Char)
  | acc, [] =>
    if acc.isEmpty then none
    else match dropPre closing [] with
      | some r => some (acc.reverse, r)
      | none => none
  | acc, c :: r =>
    if acc.isEmpty then scanContent closing [c] r
    else match dropPre closing (c :: r) with
      | some r2 => some (acc.reverse, r2)
      | none => scanContent closing (c :: acc) r

/-- Attempt of the field regex `(?s)<(p|div)\s+class="([^" ]+?)">(.+?)</\1>`
at the current position: alternation `(p|div)`, then greedy `\s+` (at least
one whitespace character, maximal because `c` is not whitespace), the literal
`class="`, the label, the literal `">`, and the non-greedy content up to the
backreferenced closing tag.  Returns `(label, raw content, remainder after the
match)`. -/
def fieldMatchHere : List Char → Option (String × String × List Char)
  | '<' :: r =>
    match
      (match r with
       | 'p' :: r1 => some ("p", r1)
       | 'd' :: 'i' :: 'v' :: r1 => some ("div", r1)
       | _ => none) with
    | none => none
    | some (tag, r1) =>
      match r1 with
      | [] => none
      | c :: _ =>
        if isPySpace c then
          match dropPre ("class=\"").toList (r1.dropWhile isPySpace) with
          | none => none
          | some r3 =>
            match scanLabel [] r3 with
            | none => none
            | some (lab, r4) =>
              match scanContent ("</" ++ tag ++ ">").toList [] r4 with
              | none => none
              | some (content, r5) => some (lab.asString, content.asString, r5)
        else none
  | _ => none

/-- Embedding of `re.finditer` for the field regex: scan left to right; on a
match, emit `(label, raw content)` and continue after the match; otherwise
advance one character.  The fuel argument bounds the number of steps; one unit
is consumed per step, and a successful match always consumes at least one
character, so an initial fuel of `l.length` is sufficient (made precise by
`findFieldMatchesAux_fuel`). -/
def findFieldMatchesAux : Nat → List Char → List (String × String)
  | 0, _ => []
  | _ + 1, [] => []
  | fuel + 1, c :: rest =>
    match fieldMatchHere (c :: rest) with
    | some (lab, content, r) => (lab, content) :: findFieldMatchesAux fuel r
    | none => findFieldMatchesAux fuel rest

/-- All matches of the field regex over the page, in source order. -/
def findFieldMatches (l : List Char) : List (String × String) :=
  findFieldMatchesAux l.length l

/-- Python dicts with string keys and values, as insertion-ordered association
lists with unique keys. -/
abbrev Dict := List (String × String)

/-- Python dict assignment `d[k] = v`: overwrite in place when the key exists,
append otherwise. -/
def dictUpdate (d : Dict) (k v : String) : Dict :=
  if d.any (fun p => decide (p.fst = k)) then
    d.map (fun p => if p.fst = k then (p.fst, v) else p)
  else d ++ [(k, v)]

/-- Python dict lookup `d[k]`, `none` meaning a `KeyError`: the value of the
first (and, for dicts built by `dictUpdate`, only) entry with key `k`. -/
def dictGet? : Dict → String → Option String
  | [], _ => none
  | p :: rest, k => if p.fst = k then some p.snd else dictGet? rest k

/-- Python `k in d`. -/
def dictHas (d : Dict) (k : String) : Bool := (dictGet? d k).isSome

/-- First dict comprehension of the scraper:
`{g.group(2): clean_html(g.group(3)) for g in re.finditer(...)}`. -/
def rawFieldDict (clean : String → String) (ms : List (String × String)) : Dict :=
  ms.foldl (fun d m => dictUpdate d m.fst (clean m.snd)) []

/-- Second dict comprehension of the scraper:
`{k: re.sub(r'\s+', ' ', v) for k, v in data_dict.items() if v}`. -/
def filterCollapse (d : Dict) : Dict :=
  d.filterMap (fun p => if p.snd = "" then none else some (p.fst, collapseWs p.snd))

/-- The FieldMap (`data_dict`) of a raw page, parameterised by the cleaning
function. -/
def buildDataDict (clean : String → String) (page : String) : Dict :=
  filterCollapse (rawFieldDict clean (findFieldMatches page.toList))

/-- The FieldMap of a raw page as computed by the source (with `clean_html`). -/
def dataDictOf (page : String) : Dict := buildDataDict clean_html page

/-- Attempt of the regex `\s*さん\s*$` at the current position: greedy `\s*`,
the literal `さん`, then `\s*$`.  Because `\s*` before `$` is greedy and `$`
matches at the end of the string (or just before a final newline, itself a
whitespace character), the attempt succeeds exactly when the remainder is
whitespace, `さん`, whitespace up to the end. -/
def sanMatchHere (l : List Char) : Bool :=
  match l.dropWhile isPySpace with
  | 'さ' :: 'ん' :: r => r.all isPySpace
  | _ => false

/-- Embedding of `re.sub(r'\s*さん\s*$', '', s)`: the leftmost match (which
necessarily extends to the end of the string) is removed. -/
def rstripSanAux : List Char → List Char
  | [] => []
  | c :: r => if sanMatchHere (c :: r) then [] else c :: rstripSanAux r

/-- The `user_name` post-processing
`re.sub(r'\s*さん\s*$', '', data_dict['user_name'])`. -/
def rstripSan (s : String) : String := (rstripSanAux s.toList).asString

/-- Whether the string literally ends with the polite suffix `さん` (the
notion of "trailing token" used to formalise C5 as stated). -/
def endsWithSan (s : String) : Bool :=
  match s.toList.reverse with
  | 'ん' :: 'さ' :: _ => true
  | _ => false

/-- Whether the character list ends with `さん` once trailing whitespace is
ignored — the condition under which the regex `\s*さん\s*$` actually matches. -/
def endsWithSanWsList (l : List Char) : Bool :=
  match l.reverse.dropWhile isPySpace with
  | 'ん' :: 'さ' :: _ => true
  | _ => false

/-- Embedding of `re.search`: try the position matcher `f` at every position,
left to right, the end-of-string position included. -/
def scanFor {α : Type} (f : List Char → Option α) : List Char → Option α
  | [] => f []
  | c :: r =>
    match f (c :: r) with
    | some a => some a
    | none => scanFor f r

/-- Attempt of the regex `(\d\d\d\d/\d\d/\d\d)` at the current position. -/
def dateAt : List Char → Option (List Char)
  | c1 :: c2 :: c3 :: c4 :: '/' :: c5 :: c6 :: '/' :: c7 :: c8 :: _ =>
    if isPyDigit c1 && isPyDigit c2 && isPyDigit c3 && isPyDigit c4 &&
       isPyDigit c5 && isPyDigit c6 && isPyDigit c7 && isPyDigit c8 then
      some [c1, c2, c3, c4, '/', c5, c6, '/', c7, c8]
    else none
  | _ => none

/-- Leftmost match of `(\d\d\d\d/\d\d/\d\d)`, as in
`self._search_regex(r'(\d\d\d\d/\d\d/\d\d)', ..., default=None)`. -/
def findDate : List Char → Option (List Char) := scanFor dateAt

/-- The `.replace('/', '')` applied to a matched date group. -/
def dropSlashes (l : List Char) : String := (l.filter (fun c => !(c = '/'))).asString

/-- The `upload_date` computation (damtomo.py lines 72 and 159):
`try_get(data_dict, lambda x: self._search_regex(r'(\d\d\d\d/\d\d/\d\d)',
x['date'], 'upload_date', default=None).replace('/', ''), compat_str)`.
`try_get` swallows the `KeyError` of a missing `date` key and the
`AttributeError` of calling `.replace` on `None` when the regex has no match,
so both cases yield `none` rather than an error. -/
def uploadDateOf (d : Dict) : Option String :=
  match dictGet? d "date" with
  | none => none
  | some v =>
    match findDate v.toList with
    | none => none
    | some m => some (dropSlashes m)

/-- Leftmost match of `(\d+)` (greedy): the first maximal run of digits, as in
`self._search_regex(r'(\d+)', ..., default=None)`. -/
def searchDigits (s : String) : Option String :=
  match s.toList.dropWhile (fun c => !isPyDigit c) with
  | [] => none
  | c :: r => some (((c :: r).takeWhile isPyDigit).asString)

/-- Modelled from the spec: `int_or_none` from `yt_dlp/utils.py` is code of
this repository that is not under `src/`; per the spec (§4.4) it parses the
extracted digit run as an integer and is absent (`None`) when there was no
match.  At both call sites the argument, when present, is a non-empty run of
decimal digits. -/
def int_or_none : Option String → Option Nat
  | none => none
  | some s => some (s.toList.foldl (fun a c => 10 * a + digitVal c) 0)

/-- Attempt of the description regex
`(?m)<div id="public_comment">\s*<p>\s*([^<]*?)\s*</p>` at the current
position.  After `<p>`, the span between the greedy leading `\s*`, the
non-greedy `[^<]*?` and the trailing `\s*` must end at the first `<`, which
must start the literal `</p>`; the captured group is that span with
surrounding whitespace trimmed. -/
def descAt (l : List Char) : Option String :=
  match dropPre ("<div id=\"public_comment\">").toList l with
  | none => none
  | some r1 =>
    match dropPre ("<p>").toList (r1.dropWhile isPySpace) with
    | none => none
    | some r3 =>
      let seg := r3.takeWhile (fun c => !(c = '<'))
      match dropPre ("</p>").toList (r3.drop seg.length) with
      | none => none
      | some _ => some (pyStripList seg).asString

/-- The description extraction (damtomo.py lines 38 and 125):
`self._search_regex(r'(?m)<div id="public_comment">\s*<p>\s*([^<]*?)\s*</p>',
webpage, 'description', default=None)`. -/
def searchDescription (s : String) : Option String := scanFor descAt s.toList

/-- Attempt of the uploader-id regex
`<a href="https://www\.clubdam\.com/app/damtomo/member/info/Profile\.do\?damtomoId=([^"]+)"`
at the current position: the literal anchor, then the greedy `([^"]+)`
(maximal run of non-quote characters, at least one) followed by `"`. -/
def uploaderIdAt (l : List Char) : Option String :=
  match dropPre ("<a href=\"https://www.clubdam.com/app/damtomo/member/info/Profile.do?damtomoId=").toList l with
  | none => none
  | some r =>
    let run := r.takeWhile (fun c => !(c = '"'))
    if run.isEmpty then none
    else if (r.drop run.length).isEmpty then none
    else some run.asString

/-- The uploader-id extraction (damtomo.py lines 39 and 126). -/
def searchUploaderId (s : String) : Option String := scanFor uploaderIdAt s.toList

/-- A parsed XML element, as produced by `xml.etree.ElementTree`: the tag is
namespace-qualified in Clark notation, the text is the element's direct text
content. -/
inductive XmlElem where
  | elem (tag : String) (text : Option String) (children : List XmlElem)

/-- Tag of an element. -/
def XmlElem.tag : XmlElem → String
  | .elem t _ _ => t

/-- Text of an element. -/
def XmlElem.text : XmlElem → Option String
  | .elem _ tx _ => tx

mutual
/-- `ElementTree.find('.//tag')` on an element: first descendant (document
order, the element itself excluded) whose qualified tag equals `t`. -/
def findElem (t : String) : XmlElem → Option XmlElem
  | .elem _ _ cs => findElemList t cs
/-- `ElementTree.find('.//tag')` over a sibling list: each element is visited
before its own descendants, and a subtree before its right siblings. -/
def findElemList (t : String) : List XmlElem → Option XmlElem
  | [] => none
  | c :: rest =>
    if c.tag = t then some c
    else
      match findElem t c with
      | some x => some x
      | none => findElemList t rest
end

/-- The Clark-notation tag looked up by
`x.find('.//d:streamingUrl', {'d': ns})`. -/
def streamTag (ns : String) : String := "\x7b" ++ ns ++ "\x7dstreamingUrl"

/-- The manifest lookup
`try_get(stream_tree, lambda x: x.find('.//d:streamingUrl', {'d': ns}).text.strip(), compat_str)`:
`try_get` turns the `AttributeError` of a missing element (`None.text`) or of
a `None` text (`None.strip()`) into `None`; otherwise the text is stripped. -/
def streamUrlOf (ns : String) (tree : XmlElem) : Option String :=
  match findElem (streamTag ns) tree with
  | none => none
  | some e =>
    match e.text with
    | none => none
    | some t => some (pyStrip t)

/-- Errors that abort an extraction call: a raised `ExtractorError` with its
message and `expected` classification, or an uncaught `KeyError` on a dict
access (the spec's `MissingField`). -/
inductive ExtractErr where
  | extractorError (msg : String) (expected : Bool)
  | keyError (key : String)
deriving DecidableEq

/-- One entry of the `formats` list of the result. -/
structure FormatEntry where
  format_id : String
  url : String
  ext : String
  protocol : String
deriving DecidableEq

/-- The normalized metadata record returned by a successful extraction. -/
structure ExtractionResult where
  id : String
  title : String
  uploader_id : Option String
  description : Option String
  formats : List FormatEntry
  uploader : String
  upload_date : Option String
  view_count : Option Nat
  like_count : Option Nat
  song_title : String
  song_artist : String
deriving DecidableEq

/-- The rate-limit landing URL compared against `handle.url`. -/
def rateLimitUrl : String := "https://www.clubdam.com/sorry/"

/-- The server-error marker searched in the page body. -/
def serverErrorMarker : String := "<h2>予期せぬエラーが発生しました。</h2>"

/-- The check `'<h2>予期せぬエラーが発生しました。</h2>' in webpage`. -/
def pageHasMarker (page : String) : Bool :=
  containsSub serverErrorMarker.toList page.toList

/-- The spec's `RateLimited` error:
`ExtractorError('You are rate-limited. Try again later.', expected=True)`. -/
def rateLimitedErr : ExtractErr :=
  .extractorError "You are rate-limited. Try again later." true

/-- The spec's `ServerError` error:
`ExtractorError('There is an error on server-side. Try again later.', expected=True)`. -/
def serverErrorErr : ExtractErr :=
  .extractorError "There is an error on server-side. Try again later." true

/-- The spec's `ManifestNotFound` error:
`ExtractorError('Failed to obtain m3u8 URL')` (the `expected` flag defaults to
`False`). -/
def manifestNotFoundErr : ExtractErr :=
  .extractorError "Failed to obtain m3u8 URL" false

/-- The XML namespace constant of `DamtomoVideoIE`. -/
def nsVideo : String :=
  "https://www.clubdam.com/app/damtomo/karaokeMovie/GetStreamingDkmUrlXML"

/-- The XML namespace constant of `DamtomoRecordIE`. -/
def nsRecord : String :=
  "https://www.clubdam.com/app/damtomo/karaokePost/GetStreamingKrkUrlXML"

/-- Page URL template of `DamtomoVideoIE`. -/
def videoPageUrl (id : String) : String :=
  "https://www.clubdam.com/app/damtomo/karaokeMovie/StreamingDkm.do?karaokeMovieId=" ++ id

/-- Manifest URL template of `DamtomoVideoIE`. -/
def videoXmlUrl (id : String) : String :=
  "https://www.clubdam.com/app/damtomo/karaokeMovie/GetStreamingDkmUrlXML.do?movieSelectFlg=2&karaokeMovieId=" ++ id

/-- Page URL template of `DamtomoRecordIE`. -/
def recordPageUrl (id : String) : String :=
  "https://www.clubdam.com/app/damtomo/karaokePost/StreamingKrk.do?karaokeContributeId=" ++ id

/-- Manifest URL template of `DamtomoRecordIE`. -/
def recordXmlUrl (id : String) : String :=
  "https://www.clubdam.com/app/damtomo/karaokePost/GetStreamingKrkUrlXML.do?karaokeContributeId=" ++ id

/-- Shallow embedding of `DamtomoVideoIE._real_extract`
(src/yt_dlp/extractor/damtomo.py, lines 26-77).  `webpage` and `handleUrl` are
the decoded body and final resolved URL of the first HTTP GET (for
`videoPageUrl video_id`), and `stream_tree` is the parsed XML document of the
second GET (for `videoXmlUrl video_id`).  Raised `ExtractorError`s and
uncaught `KeyError`s become the `Except.error` branch; the dict lookups appear
in the evaluation order of the source (`user_name` at line 48; `song_title`,
`song_artist` via the `%` formatting at line 49; the manifest check at lines
57-58; `audience` and `nice` inside the result literal at lines 73-74). -/
def videoRealExtract (video_id webpage handleUrl : String) (stream_tree : XmlElem) :
    Except ExtractErr ExtractionResult :=
  if handleUrl = rateLimitUrl then .error rateLimitedErr
  else if pageHasMarker webpage then .error serverErrorErr
  else
    let description := searchDescription webpage
    let uploader_id := searchUploaderId webpage
    let d0 := dataDictOf webpage
    match dictGet? d0 "user_name" with
    | none => .error (.keyError "user_name")
    | some un =>
      let dd := dictUpdate d0 "user_name" (rstripSan un)
      match dictGet? dd "song_title" with
      | none => .error (.keyError "song_title")
      | some st =>
        match dictGet? dd "song_artist" with
        | none => .error (.keyError "song_artist")
        | some sa =>
          match dictGet? dd "user_name" with
          | none => .error (.keyError "user_name")
          | some un2 =>
            let title := st ++ "-" ++ sa ++ "-" ++ un2
            match streamUrlOf nsVideo stream_tree with
            | none => .error manifestNotFoundErr
            | some m3u8 =>
              if m3u8 = "" then .error manifestNotFoundErr
              else
                match dictGet? dd "audience" with
                | none => .error (.keyError "audience")
                | some audience =>
                  match dictGet? dd "nice" with
                  | none => .error (.keyError "nice")
                  | some nice =>
                    .ok { id := video_id, title := title, uploader_id := uploader_id,
                          description := description,
                          formats := [{ format_id := "hls", url := m3u8, ext := "mp4",
                                        protocol := "m3u8_native" }],
                          uploader := un2,
                          upload_date := uploadDateOf dd,
                          view_count := int_or_none (searchDigits audience),
                          like_count := int_or_none (searchDigits nice),
                          song_title := st, song_artist := sa }

/-- Shallow embedding of `DamtomoRecordIE._real_extract`
(src/yt_dlp/extractor/damtomo.py, lines 113-164), under the same conventions
as `videoRealExtract`; the body is the line-by-line duplicate found in the
source, with `recordPageUrl` / `recordXmlUrl` as the request templates and
`nsRecord` as the manifest namespace. -/
def recordRealExtract (video_id webpage handleUrl : String) (stream_tree : XmlElem) :
    Except ExtractErr ExtractionResult :=
  if handleUrl = rateLimitUrl then .error rateLimitedErr
  else if pageHasMarker webpage then .error serverErrorErr
  else
    let description := searchDescription webpage
    let uploader_id := searchUploaderId webpage
    let d0 := dataDictOf webpage
    match dictGet? d0 "user_name" with
    | none => .error (.keyError "user_name")
    | some un =>
      let dd := dictUpdate d0 "user_name" (rstripSan un)
      match dictGet? dd "song_title" with
      | none => .error (.keyError "song_title")
      | some st =>
        match dictGet? dd "song_artist" with
        | none => .error (.keyError "song_artist")
        | some sa =>
          match dictGet? dd "user_name" with
          | none => .error (.keyError "user_name")
          | some un2 =>
            let title := st ++ "-" ++ sa ++ "-" ++ un2
            match streamUrlOf nsRecord stream_tree with
            | none => .error manifestNotFoundErr
            | some m3u8 =>
              if m3u8 = "" then .error manifestNotFoundErr
              else
                match dictGet? dd "audience" with
                | none => .error (.keyError "audience")
                | some audience =>
                  match dictGet? dd "nice" with
                  | none => .error (.keyError "nice")
                  | some nice =>
                    .ok { id := video_id, title := title, uploader_id := uploader_id,
                          description := description,
                          formats := [{ format_id := "hls", url := m3u8, ext := "mp4",
                                        protocol := "m3u8_native" }],
                          uploader := un2,
                          upload_date := uploadDateOf dd,
                          view_count := int_or_none (searchDigits audience),
                          like_count := int_or_none (searchDigits nice),
                          song_title := st, song_artist := sa }

/-! Fixtures used by witnesses: small synthetic pages and manifest trees under
the shapes the extractors scrape (field values taken from the record test
fixture of the source file). -/

/-- A synthetic record page carrying the six scraped fields with the values of
the `karaokeContributeId=27376862` test fixture of the source file. -/
def fixturePage : String :=
  "<p class=\"user_name\">ＮＡＮＡさん</p><p class=\"song_title\">イカSUMMER [良音]</p><p class=\"song_artist\">ORANGE RANGE</p><p class=\"audience\">4 回視聴</p><p class=\"nice\">1</p><p class=\"date\">2021/07/21 12:00</p>"

/-- The `fixturePage` variant without the `date` field. -/
def fixturePageNoDate : String :=
  "<p class=\"user_name\">ＮＡＮＡさん</p><p class=\"song_title\">イカSUMMER [良音]</p><p class=\"song_artist\">ORANGE RANGE</p><p class=\"audience\">4 回視聴</p><p class=\"nice\">1</p>"

/-- The `fixturePage` variant without the `audience` field. -/
def fixturePageNoAudience : String :=
  "<p class=\"user_name\">ＮＡＮＡさん</p><p class=\"song_title\">イカSUMMER [良音]</p><p class=\"song_artist\">ORANGE RANGE</p><p class=\"nice\">1</p><p class=\"date\">2021/07/21 12:00</p>"

/-- A manifest tree for the record extractor whose namespaced `streamingUrl`
element holds a URL. -/
def fixtureRecordTree : XmlElem :=
  .elem "root" none [.elem (streamTag nsRecord) (some "https://example.com/a.m3u8") []]

/-- A manifest tree for the video extractor whose namespaced `streamingUrl`
element holds the same URL. -/
def fixtureVideoTree : XmlElem :=
  .elem "root" none [.elem (streamTag nsVideo) (some "https://example.com/a.m3u8") []]

/-- A manifest tree without any `streamingUrl` element. -/
def fixtureEmptyTree : XmlElem := .elem "root" none []

/-- An ordinary (non-rate-limit) final URL used by witnesses. -/
def plainUrl : String := "https://www.clubdam.com/app/damtomo/karaokePost/StreamingKrk.do?karaokeContributeId=27376862"

/-- The record the record extractor returns on `fixturePage` with
`fixtureRecordTree` (checked by `rfl` in the witnesses that use it). -/
def fixtureRecordResult : ExtractionResult :=
  { id := "27376862",
    title := "イカSUMMER [良音]-ORANGE RANGE-ＮＡＮＡ",
    uploader_id := none,
    description := none,
    formats := [{ format_id := "hls", url := "https://example.com/a.m3u8", ext := "mp4",
                  protocol := "m3u8_native" }],
    uploader := "ＮＡＮＡ",
    upload_date := some "20210721",
    view_count := some 4,
    like_count := some 1,
    song_title := "イカSUMMER [良音]",
    song_artist := "ORANGE RANGE" }

/-- The record the record extractor returns on `fixturePageNoDate` (no `date`
field): identical, except that `upload_date` is absent. -/
def fixtureNoDateResult : ExtractionResult :=
  { fixtureRecordResult with id := "1", upload_date := none }

/-- First missing entry, in the evaluation order of the source, among the five
FieldMap keys whose absence raises an uncaught `KeyError`: `user_name`
(line 48), `song_title` and `song_artist` (the `%` formatting at line 49),
`audience` and `nice` (the result literal at lines 73-74). -/
def fiveMissingFirst (d : Dict) : Option String :=
  if dictHas d "user_name" = false then some "user_name"
  else if dictHas d "song_title" = false then some "song_title"
  else if dictHas d "song_artist" = false then some "song_artist"
  else if dictHas d "audience" = false then some "audience"
  else if dictHas d "nice" = false then some "nice"
  else none

/-! Association-list lemmas for the Python-dict model. -/

theorem dictGet?_map_overwrite (d : Dict) (k v : String)
    (h : d.any (fun p => decide (p.fst = k)) = true) :
    dictGet? (d.map (fun p => if p.fst = k then (p.fst, v) else p)) k = some v := by
  induction d with
  | nil => simp at h
  | cons p rest ih =>
    simp only [List.any_cons, Bool.or_eq_true, decide_eq_true_eq] at h
    by_cases hp : p.fst = k
    · simp [dictGet?, hp]
    · have hr : rest.any (fun p => decide (p.fst = k)) = true := by
        rcases h with h | h
        · exact absurd h hp
        · exact h
      simpa [dictGet?, hp] using ih hr

theorem dictGet?_map_ne (d : Dict) (k v k' : String) (hne : k' ≠ k) :
    dictGet? (d.map (fun p => if p.fst = k then (p.fst, v) else p)) k'
      = dictGet? d k' := by
  induction d with
  | nil => rfl
  | cons p rest ih =>
    by_cases hp : p.fst = k
    · have hp' : ¬ k = k' := fun hkk => hne hkk.symm
      simpa [dictGet?, hp, hp'] using ih
    · by_cases hq : p.fst = k'
      · have hq' : ¬ k' = k := hne
        simp [dictGet?, hp, hq, hq']
      · simpa [dictGet?, hp, hq] using ih

theorem dictGet?_append_single (d : Dict) (k v : String)
    (h : d.any (fun p => decide (p.fst = k)) = false) :
    dictGet? (d ++ [(k, v)]) k = some v := by
  induction d with
  | nil => simp [dictGet?]
  | cons p rest ih =>
    simp only [List.any_cons, Bool.or_eq_false_iff, decide_eq_false_iff_not] at h
    simpa [dictGet?, h.1] using ih (by simpa using h.2)

theorem dictGet?_append_single_ne (d : Dict) (k v k' : String) (hne : k' ≠ k) :
    dictGet? (d ++ [(k, v)]) k' = dictGet? d k' := by
  induction d with
  | nil =>
    have : ¬ k = k' := fun h => hne h.symm
    simp [dictGet?, this]
  | cons p rest ih =>
    by_cases hp : p.fst = k'
    · simp [dictGet?, hp]
    · simpa [dictGet?, hp] using ih

theorem dictGet?_dictUpdate_self (d : Dict) (k v : String) :
    dictGet? (dictUpdate d k v) k = some v := by
  unfold dictUpdate
  split
  · rename_i h
    exact dictGet?_map_overwrite d k v h
  · rename_i h
    rw [Bool.not_eq_true] at h
    exact dictGet?_append_single d k v h

theorem dictGet?_dictUpdate_ne (d : Dict) (k v k' : String) (hne : k' ≠ k) :
    dictGet? (dictUpdate d k v) k' = dictGet? d k' := by
  unfold dictUpdate
  split
  · exact dictGet?_map_ne d k v k' hne
  · exact dictGet?_append_single_ne d k v k' hne

/-! Evaluation and inversion lemmas for the two extractors. -/

theorem videoRealExtract_eval (id page url : String) (tree : XmlElem)
    (un st sa aud nice : String)
    (hurl : ¬ url = rateLimitUrl)
    (hmark : pageHasMarker page = false)
    (hun : dictGet? (dataDictOf page) "user_name" = some un)
    (hst : dictGet? (dataDictOf page) "song_title" = some st)
    (hsa : dictGet? (dataDictOf page) "song_artist" = some sa)
    (haud : dictGet? (dataDictOf page) "audience" = some aud)
    (hnice : dictGet? (dataDictOf page) "nice" = some nice) :
    videoRealExtract id page url tree =
      match streamUrlOf nsVideo tree with
      | none => .error manifestNotFoundErr
      | some m3u8 =>
        if m3u8 = "" then .error manifestNotFoundErr
        else
          .ok { id := id,
                title := st ++ "-" ++ sa ++ "-" ++ rstripSan un,
                uploader_id := searchUploaderId page,
                description := searchDescription page,
                formats := [{ format_id := "hls", url := m3u8, ext := "mp4",
                              protocol := "m3u8_native" }],
                uploader := rstripSan un,
                upload_date := uploadDateOf
                  (dictUpdate (dataDictOf page) "user_name" (rstripSan un)),
                view_count := int_or_none (searchDigits aud),
                like_count := int_or_none (searchDigits nice),
                song_title := st, song_artist := sa } := by
  have e1 : dictGet? (dictUpdate (dataDictOf page) "user_name" (rstripSan un)) "song_title"
      = some st := by
    rw [dictGet?_dictUpdate_ne _ _ _ _ (by decide)]
    exact hst
  have e2 : dictGet? (dictUpdate (dataDictOf page) "user_name" (rstripSan un)) "song_artist"
      = some sa := by
    rw [dictGet?_dictUpdate_ne _ _ _ _ (by decide)]
    exact hsa
  have e3 : dictGet? (dictUpdate (dataDictOf page) "user_name" (rstripSan un)) "user_name"
      = some (rstripSan un) := dictGet?_dictUpdate_self _ _ _
  have e4 : dictGet? (dictUpdate (dataDictOf page) "user_name" (rstripSan un)) "audience"
      = some aud := by
    rw [dictGet?_dictUpdate_ne _ _ _ _ (by decide)]
    exact haud
  have e5 : dictGet? (dictUpdate (dataDictOf page) "user_name" (rstripSan un)) "nice"
      = some nice := by
    rw [dictGet?_dictUpdate_ne _ _ _ _ (by decide)]
    exact hnice
  simp only [videoRealExtract, hmark, Bool.false_eq_true, if_false, if_neg hurl, hun, e1, e2, e3, e4, e5]

theorem recordRealExtract_eval (id page url : String) (tree : XmlElem)
    (un st sa aud nice : String)
    (hurl : ¬ url = rateLimitUrl)
    (hmark : pageHasMarker page = false)
    (hun : dictGet? (dataDictOf page) "user_name" = some un)
    (hst : dictGet? (dataDictOf page) "song_title" = some st)
    (hsa : dictGet? (dataDictOf page) "song_artist" = some sa)
    (haud : dictGet? (dataDictOf page) "audience" = some aud)
    (hnice : dictGet? (dataDictOf page) "nice" = some nice) :
    recordRealExtract id page url tree =
      match streamUrlOf nsRecord tree with
      | none => .error manifestNotFoundErr
      | some m3u8 =>
        if m3u8 = "" then .error manifestNotFoundErr
        else
          .ok { id := id,
                title := st ++ "-" ++ sa ++ "-" ++ rstripSan un,
                uploader_id := searchUploaderId page,
                description := searchDescription page,
                formats := [{ format_id := "hls", url := m3u8, ext := "mp4",
                              protocol := "m3u8_native" }],
                uploader := rstripSan un,
                upload_date := uploadDateOf
                  (dictUpdate (dataDictOf page) "user_name" (rstripSan un)),
                view_count := int_or_none (searchDigits aud),
                like_count := int_or_none (searchDigits nice),
                song_title := st, song_artist := sa } := by
  have e1 : dictGet? (dictUpdate (dataDictOf page) "user_name" (rstripSan un)) "song_title"
      = some st := by
    rw [dictGet?_dictUpdate_ne _ _ _ _ (by decide)]
    exact hst
  have e2 : dictGet? (dictUpdate (dataDictOf page) "user_name" (rstripSan un)) "song_artist"
      = some sa := by
    rw [dictGet?_dictUpdate_ne _ _ _ _ (by decide)]
    exact hsa
  have e3 : dictGet? (dictUpdate (dataDictOf page) "user_name" (rstripSan un)) "user_name"
      = some (rstripSan un) := dictGet?_dictUpdate_self _ _ _
  have e4 : dictGet? (dictUpdate (dataDictOf page) "user_name" (rstripSan un)) "audience"
      = some aud := by
    rw [dictGet?_dictUpdate_ne _ _ _ _ (by decide)]
    exact haud
  have e5 : dictGet? (dictUpdate (dataDictOf page) "user_name" (rstripSan un)) "nice"
      = some nice := by
    rw [dictGet?_dictUpdate_ne _ _ _ _ (by decide)]
    exact hnice
  simp only [recordRealExtract, hmark, Bool.false_eq_true, if_false, if_neg hurl, hun, e1, e2, e3, e4, e5]

theorem videoRealExtract_ok_inv (id page url : String) (tree : XmlElem)
    (r : ExtractionResult) (h : videoRealExtract id page url tree = .ok r) :
    ∃ un st sa aud nice m3u8,
      dictGet? (dataDictOf page) "user_name" = some un ∧
      dictGet? (dataDictOf page) "song_title" = some st ∧
      dictGet? (dataDictOf page) "song_artist" = some sa ∧
      dictGet? (dataDictOf page) "audience" = some aud ∧
      dictGet? (dataDictOf page) "nice" = some nice ∧
      streamUrlOf nsVideo tree = some m3u8 ∧ ¬ m3u8 = "" ∧
      r = { id := id,
            title := st ++ "-" ++ sa ++ "-" ++ rstripSan un,
            uploader_id := searchUploaderId page,
            description := searchDescription page,
            formats := [{ format_id := "hls", url := m3u8, ext := "mp4",
                          protocol := "m3u8_native" }],
            uploader := rstripSan un,
            upload_date := uploadDateOf
              (dictUpdate (dataDictOf page) "user_name" (rstripSan un)),
            view_count := int_or_none (searchDigits aud),
            like_count := int_or_none (searchDigits nice),
            song_title := st, song_artist := sa } := by
  simp only [videoRealExtract] at h
  split at h
  · exact Except.noConfusion h
  · split at h
    · exact Except.noConfusion h
    · split at h
      · exact Except.noConfusion h
      · rename_i un hun
        split at h
        · exact Except.noConfusion h
        · rename_i st hst
          split at h
          · exact Except.noConfusion h
          · rename_i sa hsa
            split at h
            · exact Except.noConfusion h
            · rename_i un2 hun2
              split at h
              · exact Except.noConfusion h
              · rename_i m3u8 hm3u8
                split at h
                · exact Except.noConfusion h
                · rename_i hne
                  split at h
                  · exact Except.noConfusion h
                  · rename_i aud haud
                    split at h
                    · exact Except.noConfusion h
                    · rename_i nice hnice
                      rw [dictGet?_dictUpdate_self] at hun2
                      rw [dictGet?_dictUpdate_ne _ _ _ _ (by decide)] at hst
                      rw [dictGet?_dictUpdate_ne _ _ _ _ (by decide)] at hsa
                      rw [dictGet?_dictUpdate_ne _ _ _ _ (by decide)] at haud
                      rw [dictGet?_dictUpdate_ne _ _ _ _ (by decide)] at hnice
                      refine ⟨un, st, sa, aud, nice, m3u8, hun, hst, hsa, haud, hnice,
                        hm3u8, hne, ?_⟩
                      cases Option.some.inj hun2
                      exact (Except.ok.inj h).symm

theorem recordRealExtract_ok_inv (id page url : String) (tree : XmlElem)
    (r : ExtractionResult) (h : recordRealExtract id page url tree = .ok r) :
    ∃ un st sa aud nice m3u8,
      dictGet? (dataDictOf page) "user_name" = some un ∧
      dictGet? (dataDictOf page) "song_title" = some st ∧
      dictGet? (dataDictOf page) "song_artist" = some sa ∧
      dictGet? (dataDictOf page) "audience" = some aud ∧
      dictGet? (dataDictOf page) "nice" = some nice ∧
      streamUrlOf nsRecord tree = some m3u8 ∧ ¬ m3u8 = "" ∧
      r = { id := id,
            title := st ++ "-" ++ sa ++ "-" ++ rstripSan un,
            uploader_id := searchUploaderId page,
            description := searchDescription page,
            formats := [{ format_id := "hls", url := m3u8, ext := "mp4",
                          protocol := "m3u8_native" }],
            uploader := rstripSan un,
            upload_date := uploadDateOf
              (dictUpdate (dataDictOf page) "user_name" (rstripSan un)),
            view_count := int_or_none (searchDigits aud),
            like_count := int_or_none (searchDigits nice),
            song_title := st, song_artist := sa } := by
  simp only [recordRealExtract] at h
  split at h
  · exact Except.noConfusion h
  · split at h
    · exact Except.noConfusion h
    · split at h
      · exact Except.noConfusion h
      · rename_i un hun
        split at h
        · exact Except.noConfusion h
        · rename_i st hst
          split at h
          · exact Except.noConfusion h
          · rename_i sa hsa
            split at h
            · exact Except.noConfusion h
            · rename_i un2 hun2
              split at h
              · exact Except.noConfusion h
              · rename_i m3u8 hm3u8
                split at h
                · exact Except.noConfusion h
                · rename_i hne
                  split at h
                  · exact Except.noConfusion h
                  · rename_i aud haud
                    split at h
                    · exact Except.noConfusion h
                    · rename_i nice hnice
                      rw [dictGet?_dictUpdate_self] at hun2
                      rw [dictGet?_dictUpdate_ne _ _ _ _ (by decide)] at hst
                      rw [dictGet?_dictUpdate_ne _ _ _ _ (by decide)] at hsa
                      rw [dictGet?_dictUpdate_ne _ _ _ _ (by decide)] at haud
                      rw [dictGet?_dictUpdate_ne _ _ _ _ (by decide)] at hnice
                      refine ⟨un, st, sa, aud, nice, m3u8, hun, hst, hsa, haud, hnice,
                        hm3u8, hne, ?_⟩
                      cases Option.some.inj hun2
                      exact (Except.ok.inj h).symm

/-! Claim theorems. -/

/-- C1: for every extraction call (in either extractor), if the final resolved
URL of the first HTTP GET equals the rate-limit landing URL
`https://www.clubdam.com/sorry/`, the call raises the expected (non-fatal)
`ExtractorError` classified as `RateLimited`.  The quantification over an
arbitrary page body and an arbitrary manifest tree expresses that the outcome
is independent of both, i.e. no metadata scraping and no manifest lookup
influences (or is needed for) the result. -/
theorem claim_C1_rate_limited (id page : String) (tree : XmlElem) :
    videoRealExtract id page rateLimitUrl tree = .error rateLimitedErr
    ∧ recordRealExtract id page rateLimitUrl tree = .error rateLimitedErr := by
  constructor <;> simp [videoRealExtract, recordRealExtract]

/-- C2: for every extraction call not redirected to the rate-limit URL, if the
decoded page body contains the server-error marker
`<h2>予期せぬエラーが発生しました。</h2>`, the call raises the expected
`ExtractorError` classified as `ServerError` and terminates without a
result (the `Except.error` branch carries no partial data); the outcome
is again independent of the manifest tree. -/
theorem claim_C2_server_error (id page url : String) (tree : XmlElem)
    (hurl : url ≠ rateLimitUrl)
    (hmark : pageHasMarker page = true) :
    videoRealExtract id page url tree = .error serverErrorErr
    ∧ recordRealExtract id page url tree = .error serverErrorErr := by
  constructor <;> simp [videoRealExtract, recordRealExtract, hurl, hmark]

/-- Witness for C2 at a concrete input: a page that consists of the marker
itself, a non-rate-limit URL, and an arbitrary tree. -/
theorem claim_C2_server_error_witness :
    videoRealExtract "1" serverErrorMarker plainUrl fixtureEmptyTree = .error serverErrorErr
    ∧ recordRealExtract "1" serverErrorMarker plainUrl fixtureEmptyTree = .error serverErrorErr :=
  claim_C2_server_error "1" serverErrorMarker plainUrl fixtureEmptyTree
    (by decide) (by rfl)

/-- C10: on identical inputs (same decoded page text, same resource id, same
final URL) whose manifest trees contain the respective namespaced
`streamingUrl` element with identical text, `DamtomoVideoIE._real_extract` and
`DamtomoRecordIE._real_extract` compute identical results — in particular the
same description, uploader id, FieldMap, title and final record; the two
extractors differ only in their URL templates (`videoPageUrl`/`videoXmlUrl`
versus `recordPageUrl`/`recordXmlUrl`) and in the namespace constant
(`nsVideo` versus `nsRecord`) used for the lookup. -/
theorem claim_C10_equivalence (id page url : String) (treeV treeR : XmlElem)
    (h : streamUrlOf nsVideo treeV = streamUrlOf nsRecord treeR) :
    videoRealExtract id page url treeV = recordRealExtract id page url treeR := by
  simp only [videoRealExtract, recordRealExtract]
  rw [h]

/-- Witness for C10 at a concrete input: the two fixture trees hold their
respective namespaced element with the same text, and the two extractors
agree on the fixture page. -/
theorem claim_C10_equivalence_witness :
    videoRealExtract "27376862" fixturePage plainUrl fixtureVideoTree
      = recordRealExtract "27376862" fixturePage plainUrl fixtureRecordTree :=
  claim_C10_equivalence "27376862" fixturePage plainUrl fixtureVideoTree fixtureRecordTree
    (by rfl)

/-! List helper lemmas for run/scan characterizations. -/

theorem dropWhile_append_of_all {p : Char → Bool} (a b : List Char)
    (h : ∀ c ∈ a, p c) :
    List.dropWhile p (a ++ b) = List.dropWhile p b := by
  induction a with
  | nil => rfl
  | cons x xs ih =>
    simp only [List.cons_append, List.dropWhile_cons, h x (by simp)]
    exact ih (fun c hc => h c (by simp [hc]))

theorem takeWhile_append_of_all (p : Char → Bool) (run b : List Char)
    (h : ∀ c ∈ run, p c) (hb : ∀ c, b.head? = some c → p c = false) :
    List.takeWhile p (run ++ b) = run := by
  induction run with
  | nil =>
    cases b with
    | nil => rfl
    | cons x xs =>
      have := hb x rfl
      simp [List.takeWhile_cons, this]
  | cons x xs ih =>
    simp only [List.cons_append, List.takeWhile_cons, h x (by simp), if_true]
    rw [ih (fun c hc => h c (by simp [hc]))]

/-- C3: in either extractor, when the first-stage scrape succeeds (no
rate-limit redirect, no server-error marker, the five fatally-required
FieldMap keys present), the call fails with the `ManifestNotFound`
`ExtractorError` exactly when the lookup of the namespaced `streamingUrl`
element yields no element, an element with no text, or text that trims to the
empty string; otherwise the call succeeds and the resolved manifest URL in the
single `formats` entry is the element's text with surrounding whitespace
trimmed. -/
theorem claim_C3_manifest (id page url : String) (tree : XmlElem)
    (hurl : ¬ url = rateLimitUrl)
    (hmark : pageHasMarker page = false)
    (h1 : dictHas (dataDictOf page) "user_name" = true)
    (h2 : dictHas (dataDictOf page) "song_title" = true)
    (h3 : dictHas (dataDictOf page) "song_artist" = true)
    (h4 : dictHas (dataDictOf page) "audience" = true)
    (h5 : dictHas (dataDictOf page) "nice" = true) :
    ((findElem (streamTag nsVideo) tree = none
        ∨ (∃ e, findElem (streamTag nsVideo) tree = some e ∧ e.text = none)
        ∨ (∃ e t, findElem (streamTag nsVideo) tree = some e ∧ e.text = some t
            ∧ pyStrip t = "")) →
      videoRealExtract id page url tree = .error manifestNotFoundErr)
    ∧ (∀ e t, findElem (streamTag nsVideo) tree = some e → e.text = some t →
        ¬ pyStrip t = "" →
        ∃ r, videoRealExtract id page url tree = .ok r
          ∧ r.formats = [{ format_id := "hls", url := pyStrip t, ext := "mp4",
                           protocol := "m3u8_native" }])
    ∧ ((findElem (streamTag nsRecord) tree = none
        ∨ (∃ e, findElem (streamTag nsRecord) tree = some e ∧ e.text = none)
        ∨ (∃ e t, findElem (streamTag nsRecord) tree = some e ∧ e.text = some t
            ∧ pyStrip t = "")) →
      recordRealExtract id page url tree = .error manifestNotFoundErr)
    ∧ (∀ e t, findElem (streamTag nsRecord) tree = some e → e.text = some t →
        ¬ pyStrip t = "" →
        ∃ r, recordRealExtract id page url tree = .ok r
          ∧ r.formats = [{ format_id := "hls", url := pyStrip t, ext := "mp4",
                           protocol := "m3u8_native" }]) := by
  obtain ⟨pun, hun⟩ := Option.isSome_iff_exists.mp h1
  obtain ⟨pst, hst⟩ := Option.isSome_iff_exists.mp h2
  obtain ⟨psa, hsa⟩ := Option.isSome_iff_exists.mp h3
  obtain ⟨paud, haud⟩ := Option.isSome_iff_exists.mp h4
  obtain ⟨pnice, hnice⟩ := Option.isSome_iff_exists.mp h5
  have hv := videoRealExtract_eval id page url tree pun pst psa paud pnice
    hurl hmark hun hst hsa haud hnice
  have hrv := recordRealExtract_eval id page url tree pun pst psa paud pnice
    hurl hmark hun hst hsa haud hnice
  refine ⟨?_, ?_, ?_, ?_⟩
  · rintro (hfind | ⟨e, hfind, htext⟩ | ⟨e, t, hfind, htext, hstrip⟩)
    · rw [hv]
      simp [streamUrlOf, hfind]
    · rw [hv]
      simp [streamUrlOf, hfind, htext]
    · rw [hv]
      simp [streamUrlOf, hfind, htext, hstrip]
  · intro e t hfind htext hstrip
    rw [hv]
    have hs : streamUrlOf nsVideo tree = some (pyStrip t) := by
      simp [streamUrlOf, hfind, htext]
    rw [hs]
    simp only [if_neg hstrip]
    exact ⟨_, rfl, rfl⟩
  · rintro (hfind | ⟨e, hfind, htext⟩ | ⟨e, t, hfind, htext, hstrip⟩)
    · rw [hrv]
      simp [streamUrlOf, hfind]
    · rw [hrv]
      simp [streamUrlOf, hfind, htext]
    · rw [hrv]
      simp [streamUrlOf, hfind, htext, hstrip]
  · intro e t hfind htext hstrip
    rw [hrv]
    have hs : streamUrlOf nsRecord tree = some (pyStrip t) := by
      simp [streamUrlOf, hfind, htext]
    rw [hs]
    simp only [if_neg hstrip]
    exact ⟨_, rfl, rfl⟩

/-- Witness for C3 at concrete inputs: on `fixturePage` (all five keys
present) with a tree lacking the element, both extractors fail with
`ManifestNotFound`; with the fixture trees carrying `"https://example.com/a.m3u8"`
both succeed and return exactly that URL in `formats`. -/
theorem claim_C3_manifest_witness :
    videoRealExtract "1" fixturePage plainUrl fixtureEmptyTree
      = .error manifestNotFoundErr
    ∧ (∃ r, videoRealExtract "1" fixturePage plainUrl fixtureVideoTree = .ok r
        ∧ r.formats = [{ format_id := "hls", url := pyStrip "https://example.com/a.m3u8",
                         ext := "mp4", protocol := "m3u8_native" }]) := by
  constructor
  · exact (claim_C3_manifest "1" fixturePage plainUrl fixtureEmptyTree
      (by decide) (by rfl) (by rfl) (by rfl) (by rfl) (by rfl) (by rfl)).1
      (Or.inl (by rfl))
  · exact (claim_C3_manifest "1" fixturePage plainUrl fixtureVideoTree
      (by decide) (by rfl) (by rfl) (by rfl) (by rfl) (by rfl) (by rfl)).2.1
      (XmlElem.elem (streamTag nsVideo) (some "https://example.com/a.m3u8") [])
      "https://example.com/a.m3u8" (by rfl) (by rfl) (by decide)

/-- C6: in either extractor, every successful extraction has a title equal to
the FieldMap's `song_title`, `song_artist` and the suffix-stripped `user_name`
joined with literal hyphens. -/
theorem claim_C6_title (id page url : String) (tree : XmlElem) (r : ExtractionResult) :
    (videoRealExtract id page url tree = .ok r →
      ∃ st sa un, dictGet? (dataDictOf page) "song_title" = some st
        ∧ dictGet? (dataDictOf page) "song_artist" = some sa
        ∧ dictGet? (dataDictOf page) "user_name" = some un
        ∧ r.title = st ++ "-" ++ sa ++ "-" ++ rstripSan un)
    ∧ (recordRealExtract id page url tree = .ok r →
      ∃ st sa un, dictGet? (dataDictOf page) "song_title" = some st
        ∧ dictGet? (dataDictOf page) "song_artist" = some sa
        ∧ dictGet? (dataDictOf page) "user_name" = some un
        ∧ r.title = st ++ "-" ++ sa ++ "-" ++ rstripSan un) := by
  constructor
  · intro h
    obtain ⟨un, st, sa, aud, nice, m3u8, hun, hst, hsa, _, _, _, _, hr⟩ :=
      videoRealExtract_ok_inv id page url tree r h
    exact ⟨st, sa, un, hst, hsa, hun, by rw [hr]⟩
  · intro h
    obtain ⟨un, st, sa, aud, nice, m3u8, hun, hst, hsa, _, _, _, _, hr⟩ :=
      recordRealExtract_ok_inv id page url tree r h
    exact ⟨st, sa, un, hst, hsa, hun, by rw [hr]⟩

/-- Witness for C6 at the record fixture: the extraction succeeds with the
fixture record, whose title is the literal
`イカSUMMER [良音]-ORANGE RANGE-ＮＡＮＡ`, and the claimed decomposition holds. -/
theorem claim_C6_title_witness :
    fixtureRecordResult.title = "イカSUMMER [良音]-ORANGE RANGE-ＮＡＮＡ"
    ∧ ∃ st sa un, dictGet? (dataDictOf fixturePage) "song_title" = some st
        ∧ dictGet? (dataDictOf fixturePage) "song_artist" = some sa
        ∧ dictGet? (dataDictOf fixturePage) "user_name" = some un
        ∧ fixtureRecordResult.title = st ++ "-" ++ sa ++ "-" ++ rstripSan un := by
  refine ⟨rfl, ?_⟩
  exact (claim_C6_title "27376862" fixturePage plainUrl fixtureRecordTree
    fixtureRecordResult).2 (by rfl)

/-- C7: in either extractor, in every successful extraction whose FieldMap
contains the key `date`, the result's `upload_date` is the leftmost
`YYYY/MM/DD`-shaped substring of that value with the slashes removed, and is
absent (with no error raised: the computation goes through the total
`uploadDateOf`, whose `try_get` guard swallows the failed lookup) when no such
substring exists. -/
theorem claim_C7_upload_date (id page url : String) (tree : XmlElem)
    (r : ExtractionResult) (v : String) :
    (videoRealExtract id page url tree = .ok r →
      dictGet? (dataDictOf page) "date" = some v →
      r.upload_date = (findDate v.toList).map dropSlashes)
    ∧ (recordRealExtract id page url tree = .ok r →
      dictGet? (dataDictOf page) "date" = some v →
      r.upload_date = (findDate v.toList).map dropSlashes) := by
  constructor
  · intro h hdate
    obtain ⟨un, st, sa, aud, nice, m3u8, hun, _, _, _, _, _, _, hr⟩ :=
      videoRealExtract_ok_inv id page url tree r h
    rw [hr]
    show uploadDateOf (dictUpdate (dataDictOf page) "user_name" (rstripSan un)) = _
    unfold uploadDateOf
    rw [dictGet?_dictUpdate_ne _ _ _ _ (by decide), hdate]
    show (match findDate v.toList with
          | none => (none : Option String)
          | some m => some (dropSlashes m)) = (findDate v.toList).map dropSlashes
    cases findDate v.toList <;> rfl
  · intro h hdate
    obtain ⟨un, st, sa, aud, nice, m3u8, hun, _, _, _, _, _, _, hr⟩ :=
      recordRealExtract_ok_inv id page url tree r h
    rw [hr]
    show uploadDateOf (dictUpdate (dataDictOf page) "user_name" (rstripSan un)) = _
    unfold uploadDateOf
    rw [dictGet?_dictUpdate_ne _ _ _ _ (by decide), hdate]
    show (match findDate v.toList with
          | none => (none : Option String)
          | some m => some (dropSlashes m)) = (findDate v.toList).map dropSlashes
    cases findDate v.toList <;> rfl

/-- Witness for C7 at the record fixture, where the `date` value is
`2021/07/21 12:00`: the result's upload date follows the claimed formula and
concretely equals `20210721`; on the date value `nope`, which has no
`YYYY/MM/DD`-shaped substring, the formula yields `none`. -/
theorem claim_C7_upload_date_witness :
    fixtureRecordResult.upload_date = (findDate ("2021/07/21 12:00").toList).map dropSlashes
    ∧ fixtureRecordResult.upload_date = some "20210721"
    ∧ findDate ("nope").toList = none := by
  refine ⟨?_, rfl, rfl⟩
  exact (claim_C7_upload_date "27376862" fixturePage plainUrl fixtureRecordTree
    fixtureRecordResult "2021/07/21 12:00").2 (by rfl) (by rfl)

/-- C8: in either extractor, in every successful extraction whose FieldMap
contains the keys `audience` and `nice`, the result's `view_count`
(respectively `like_count`) is the integer value of the first maximal run of
decimal digits of that value, and is absent when the value contains no digit.
The last two conjuncts characterize the digit search on an arbitrary value:
it returns `none` exactly on digit-free values, and returns precisely the
first maximal digit run (digit-free prefix, non-empty all-digit run, remainder
not starting with a digit). -/
theorem claim_C8_counts (id page url : String) (tree : XmlElem)
    (r : ExtractionResult) (va vn : String) :
    (videoRealExtract id page url tree = .ok r →
      dictGet? (dataDictOf page) "audience" = some va →
      dictGet? (dataDictOf page) "nice" = some vn →
      r.view_count = int_or_none (searchDigits va)
        ∧ r.like_count = int_or_none (searchDigits vn))
    ∧ (recordRealExtract id page url tree = .ok r →
      dictGet? (dataDictOf page) "audience" = some va →
      dictGet? (dataDictOf page) "nice" = some vn →
      r.view_count = int_or_none (searchDigits va)
        ∧ r.like_count = int_or_none (searchDigits vn))
    ∧ ((∀ c ∈ va.toList, isPyDigit c = false) → searchDigits va = none)
    ∧ (∀ a run b, va.toList = a ++ (run ++ b) →
        (∀ c ∈ a, isPyDigit c = false) → run ≠ [] →
        (∀ c ∈ run, isPyDigit c = true) →
        (∀ c, b.head? = some c → isPyDigit c = false) →
        searchDigits va = some run.asString) := by
  refine ⟨?_, ?_, ?_, ?_⟩
  · intro h ha hn
    obtain ⟨un, st, sa, aud, nice, m3u8, _, _, _, haud, hnice, _, _, hr⟩ :=
      videoRealExtract_ok_inv id page url tree r h
    rw [haud] at ha
    rw [hnice] at hn
    cases Option.some.inj ha
    cases Option.some.inj hn
    rw [hr]
    exact ⟨rfl, rfl⟩
  · intro h ha hn
    obtain ⟨un, st, sa, aud, nice, m3u8, _, _, _, haud, hnice, _, _, hr⟩ :=
      recordRealExtract_ok_inv id page url tree r h
    rw [haud] at ha
    rw [hnice] at hn
    cases Option.some.inj ha
    cases Option.some.inj hn
    rw [hr]
    exact ⟨rfl, rfl⟩
  · intro hall
    unfold searchDigits
    have : va.toList.dropWhile (fun c => !isPyDigit c) = [] :=
      List.dropWhile_eq_nil_iff.mpr (fun c hc => by simp [hall c hc])
    rw [this]
  · intro a run b hsplit ha2 hne hrun hb
    unfold searchDigits
    rw [hsplit]
    rw [dropWhile_append_of_all a (run ++ b) (fun c hc => by simp [ha2 c hc])]
    cases run with
    | nil => exact absurd rfl hne
    | cons rc rrest =>
      have hrc : isPyDigit rc = true := hrun rc (by simp)
      have : List.dropWhile (fun c => !isPyDigit c) (rc :: rrest ++ b)
          = rc :: (rrest ++ b) := by
        simp [List.dropWhile_cons, hrc]
      rw [this]
      have : List.takeWhile isPyDigit (rc :: (rrest ++ b)) = rc :: rrest := by
        have := takeWhile_append_of_all isPyDigit (rc :: rrest) b hrun hb
        simpa using this
      simp [this]

/-- Witness for C8 at the record fixture (`audience = "4 回視聴"`,
`nice = "1"`): the result's counts follow the claimed formula and concretely
equal `4` and `1`; on the digit-free value `再生無し` the digit search yields
`none`. -/
theorem claim_C8_counts_witness :
    (fixtureRecordResult.view_count = int_or_none (searchDigits "4 回視聴")
      ∧ fixtureRecordResult.like_count = int_or_none (searchDigits "1"))
    ∧ fixtureRecordResult.view_count = some 4
    ∧ fixtureRecordResult.like_count = some 1
    ∧ int_or_none (searchDigits "再生無し") = none := by
  refine ⟨?_, rfl, rfl, rfl⟩
  exact (claim_C8_counts "27376862" fixturePage plainUrl fixtureRecordTree
    fixtureRecordResult "4 回視聴" "1").2.1 (by rfl) (by rfl) (by rfl)

theorem dictHas_false_iff (d : Dict) (k : String) :
    dictHas d k = false ↔ dictGet? d k = none := by
  unfold dictHas
  cases dictGet? d k <;> simp

/-- C9 (amended): a successful result requires the FieldMap to contain the
five keys `user_name`, `song_title`, `song_artist`, `audience` and `nice`
(but not `date`, whose access is guarded by `try_get`); conversely, when the
run reaches a missing one of these five — the page checks pass, and, for the
late keys `audience`/`nice`, the manifest lookup succeeds — the call fails
with the fatal uncaught `KeyError` (the spec's `MissingField`) for the first
missing key in evaluation order, and no partial result is returned. -/
theorem claim_C9_required_keys (id page url : String) (tree : XmlElem) :
    (∀ r, videoRealExtract id page url tree = .ok r →
      dictHas (dataDictOf page) "user_name" = true
      ∧ dictHas (dataDictOf page) "song_title" = true
      ∧ dictHas (dataDictOf page) "song_artist" = true
      ∧ dictHas (dataDictOf page) "audience" = true
      ∧ dictHas (dataDictOf page) "nice" = true)
    ∧ (¬ url = rateLimitUrl → pageHasMarker page = false →
      (∃ m3u8, streamUrlOf nsVideo tree = some m3u8 ∧ ¬ m3u8 = "") →
      ∀ k, fiveMissingFirst (dataDictOf page) = some k →
        videoRealExtract id page url tree = .error (.keyError k))
    ∧ (∀ r, recordRealExtract id page url tree = .ok r →
      dictHas (dataDictOf page) "user_name" = true
      ∧ dictHas (dataDictOf page) "song_title" = true
      ∧ dictHas (dataDictOf page) "song_artist" = true
      ∧ dictHas (dataDictOf page) "audience" = true
      ∧ dictHas (dataDictOf page) "nice" = true)
    ∧ (¬ url = rateLimitUrl → pageHasMarker page = false →
      (∃ m3u8, streamUrlOf nsRecord tree = some m3u8 ∧ ¬ m3u8 = "") →
      ∀ k, fiveMissingFirst (dataDictOf page) = some k →
        recordRealExtract id page url tree = .error (.keyError k)) := by
  refine ⟨?_, ?_, ?_, ?_⟩
  · intro r h
    obtain ⟨un, st, sa, aud, nice, m3u8, hun, hst, hsa, haud, hnice, _, _, _⟩ :=
      videoRealExtract_ok_inv id page url tree r h
    simp [dictHas, hun, hst, hsa, haud, hnice]
  · intro hurl hmark hm k hk
    obtain ⟨m3, hm3, hm3ne⟩ := hm
    unfold fiveMissingFirst at hk
    split_ifs at hk with b1 b2 b3 b4 b5
    · cases Option.some.inj hk
      have h0 : dictGet? (dataDictOf page) "user_name" = none :=
        (dictHas_false_iff _ _).mp b1
      simp only [videoRealExtract, hmark, Bool.false_eq_true, if_false,
        if_neg hurl, h0]
    · cases Option.some.inj hk
      obtain ⟨un, hun⟩ := Option.isSome_iff_exists.mp (by simpa using b1)
      have e1 : dictGet? (dictUpdate (dataDictOf page) "user_name" (rstripSan un))
          "song_title" = none := by
        rw [dictGet?_dictUpdate_ne _ _ _ _ (by decide)]
        exact (dictHas_false_iff _ _).mp b2
      simp only [videoRealExtract, hmark, Bool.false_eq_true, if_false,
        if_neg hurl, hun, e1]
    · cases Option.some.inj hk
      obtain ⟨un, hun⟩ := Option.isSome_iff_exists.mp (by simpa using b1)
      obtain ⟨st, hst⟩ := Option.isSome_iff_exists.mp (by simpa using b2)
      have e1 : dictGet? (dictUpdate (dataDictOf page) "user_name" (rstripSan un))
          "song_title" = some st := by
        rw [dictGet?_dictUpdate_ne _ _ _ _ (by decide)]
        exact hst
      have e2 : dictGet? (dictUpdate (dataDictOf page) "user_name" (rstripSan un))
          "song_artist" = none := by
        rw [dictGet?_dictUpdate_ne _ _ _ _ (by decide)]
        exact (dictHas_false_iff _ _).mp b3
      simp only [videoRealExtract, hmark, Bool.false_eq_true, if_false,
        if_neg hurl, hun, e1, e2]
    · cases Option.some.inj hk
      obtain ⟨un, hun⟩ := Option.isSome_iff_exists.mp (by simpa using b1)
      obtain ⟨st, hst⟩ := Option.isSome_iff_exists.mp (by simpa using b2)
      obtain ⟨sa, hsa⟩ := Option.isSome_iff_exists.mp (by simpa using b3)
      have e1 : dictGet? (dictUpdate (dataDictOf page) "user_name" (rstripSan un))
          "song_title" = some st := by
        rw [dictGet?_dictUpdate_ne _ _ _ _ (by decide)]
        exact hst
      have e2 : dictGet? (dictUpdate (dataDictOf page) "user_name" (rstripSan un))
          "song_artist" = some sa := by
        rw [dictGet?_dictUpdate_ne _ _ _ _ (by decide)]
        exact hsa
      have e3 : dictGet? (dictUpdate (dataDictOf page) "user_name" (rstripSan un))
          "user_name" = some (rstripSan un) := dictGet?_dictUpdate_self _ _ _
      have e4 : dictGet? (dictUpdate (dataDictOf page) "user_name" (rstripSan un))
          "audience" = none := by
        rw [dictGet?_dictUpdate_ne _ _ _ _ (by decide)]
        exact (dictHas_false_iff _ _).mp b4
      simp only [videoRealExtract, hmark, Bool.false_eq_true, if_false,
        if_neg hurl, hun, e1, e2, e3, e4, hm3, if_neg hm3ne]
    · cases Option.some.inj hk
      obtain ⟨un, hun⟩ := Option.isSome_iff_exists.mp (by simpa using b1)
      obtain ⟨st, hst⟩ := Option.isSome_iff_exists.mp (by simpa using b2)
      obtain ⟨sa, hsa⟩ := Option.isSome_iff_exists.mp (by simpa using b3)
      obtain ⟨aud, haud⟩ := Option.isSome_iff_exists.mp (by simpa using b4)
      have e1 : dictGet? (dictUpdate (dataDictOf page) "user_name" (rstripSan un))
          "song_title" = some st := by
        rw [dictGet?_dictUpdate_ne _ _ _ _ (by decide)]
        exact hst
      have e2 : dictGet? (dictUpdate (dataDictOf page) "user_name" (rstripSan un))
          "song_artist" = some sa := by
        rw [dictGet?_dictUpdate_ne _ _ _ _ (by decide)]
        exact hsa
      have e3 : dictGet? (dictUpdate (dataDictOf page) "user_name" (rstripSan un))
          "user_name" = some (rstripSan un) := dictGet?_dictUpdate_self _ _ _
      have e4 : dictGet? (dictUpdate (dataDictOf page) "user_name" (rstripSan un))
          "audience" = some aud := by
        rw [dictGet?_dictUpdate_ne _ _ _ _ (by decide)]
        exact haud
      have e5 : dictGet? (dictUpdate (dataDictOf page) "user_name" (rstripSan un))
          "nice" = none := by
        rw [dictGet?_dictUpdate_ne _ _ _ _ (by decide)]
        exact (dictHas_false_iff _ _).mp b5
      simp only [videoRealExtract, hmark, Bool.false_eq_true, if_false,
        if_neg hurl, hun, e1, e2, e3, e4, e5, hm3, if_neg hm3ne]
  · intro r h
    obtain ⟨un, st, sa, aud, nice, m3u8, hun, hst, hsa, haud, hnice, _, _, _⟩ :=
      recordRealExtract_ok_inv id page url tree r h
    simp [dictHas, hun, hst, hsa, haud, hnice]
  · intro hurl hmark hm k hk
    obtain ⟨m3, hm3, hm3ne⟩ := hm
    unfold fiveMissingFirst at hk
    split_ifs at hk with b1 b2 b3 b4 b5
    · cases Option.some.inj hk
      have h0 : dictGet? (dataDictOf page) "user_name" = none :=
        (dictHas_false_iff _ _).mp b1
      simp only [recordRealExtract, hmark, Bool.false_eq_true, if_false,
        if_neg hurl, h0]
    · cases Option.some.inj hk
      obtain ⟨un, hun⟩ := Option.isSome_iff_exists.mp (by simpa using b1)
      have e1 : dictGet? (dictUpdate (dataDictOf page) "user_name" (rstripSan un))
          "song_title" = none := by
        rw [dictGet?_dictUpdate_ne _ _ _ _ (by decide)]
        exact (dictHas_false_iff _ _).mp b2
      simp only [recordRealExtract, hmark, Bool.false_eq_true, if_false,
        if_neg hurl, hun, e1]
    · cases Option.some.inj hk
      obtain ⟨un, hun⟩ := Option.isSome_iff_exists.mp (by simpa using b1)
      obtain ⟨st, hst⟩ := Option.isSome_iff_exists.mp (by simpa using b2)
      have e1 : dictGet? (dictUpdate (dataDictOf page) "user_name" (rstripSan un))
          "song_title" = some st := by
        rw [dictGet?_dictUpdate_ne _ _ _ _ (by decide)]
        exact hst
      have e2 : dictGet? (dictUpdate (dataDictOf page) "user_name" (rstripSan un))
          "song_artist" = none := by
        rw [dictGet?_dictUpdate_ne _ _ _ _ (by decide)]
        exact (dictHas_false_iff _ _).mp b3
      simp only [recordRealExtract, hmark, Bool.false_eq_true, if_false,
        if_neg hurl, hun, e1, e2]
    · cases Option.some.inj hk
      obtain ⟨un, hun⟩ := Option.isSome_iff_exists.mp (by simpa using b1)
      obtain ⟨st, hst⟩ := Option.isSome_iff_exists.mp (by simpa using b2)
      obtain ⟨sa, hsa⟩ := Option.isSome_iff_exists.mp (by simpa using b3)
      have e1 : dictGet? (dictUpdate (dataDictOf page) "user_name" (rstripSan un))
          "song_title" = some st := by
        rw [dictGet?_dictUpdate_ne _ _ _ _ (by decide)]
        exact hst
      have e2 : dictGet? (dictUpdate (dataDictOf page) "user_name" (rstripSan un))
          "song_artist" = some sa := by
        rw [dictGet?_dictUpdate_ne _ _ _ _ (by decide)]
        exact hsa
      have e3 : dictGet? (dictUpdate (dataDictOf page) "user_name" (rstripSan un))
          "user_name" = some (rstripSan un) := dictGet?_dictUpdate_self _ _ _
      have e4 : dictGet? (dictUpdate (dataDictOf page) "user_name" (rstripSan un))
          "audience" = none := by
        rw [dictGet?_dictUpdate_ne _ _ _ _ (by decide)]
        exact (dictHas_false_iff _ _).mp b4
      simp only [recordRealExtract, hmark, Bool.false_eq_true, if_false,
        if_neg hurl, hun, e1, e2, e3, e4, hm3, if_neg hm3ne]
    · cases Option.some.inj hk
      obtain ⟨un, hun⟩ := Option.isSome_iff_exists.mp (by simpa using b1)
      obtain ⟨st, hst⟩ := Option.isSome_iff_exists.mp (by simpa using b2)
      obtain ⟨sa, hsa⟩ := Option.isSome_iff_exists.mp (by simpa using b3)
      obtain ⟨aud, haud⟩ := Option.isSome_iff_exists.mp (by simpa using b4)
      have e1 : dictGet? (dictUpdate (dataDictOf page) "user_name" (rstripSan un))
          "song_title" = some st := by
        rw [dictGet?_dictUpdate_ne _ _ _ _ (by decide)]
        exact hst
      have e2 : dictGet? (dictUpdate (dataDictOf page) "user_name" (rstripSan un))
          "song_artist" = some sa := by
        rw [dictGet?_dictUpdate_ne _ _ _ _ (by decide)]
        exact hsa
      have e3 : dictGet? (dictUpdate (dataDictOf page) "user_name" (rstripSan un))
          "user_name" = some (rstripSan un) := dictGet?_dictUpdate_self _ _ _
      have e4 : dictGet? (dictUpdate (dataDictOf page) "user_name" (rstripSan un))
          "audience" = some aud := by
        rw [dictGet?_dictUpdate_ne _ _ _ _ (by decide)]
        exact haud
      have e5 : dictGet? (dictUpdate (dataDictOf page) "user_name" (rstripSan un))
          "nice" = none := by
        rw [dictGet?_dictUpdate_ne _ _ _ _ (by decide)]
        exact (dictHas_false_iff _ _).mp b5
      simp only [recordRealExtract, hmark, Bool.false_eq_true, if_false,
        if_neg hurl, hun, e1, e2, e3, e4, e5, hm3, if_neg hm3ne]

/-- Witness for C9 (amended) at a concrete input: `fixturePageNoAudience`
lacks `audience` (the other four of the five fatal keys are present), the
manifest resolves, and the video extractor fails with the uncaught `KeyError`
for `audience`. -/
theorem claim_C9_required_keys_witness :
    videoRealExtract "1" fixturePageNoAudience plainUrl fixtureVideoTree
      = .error (.keyError "audience") :=
  (claim_C9_required_keys "1" fixturePageNoAudience plainUrl fixtureVideoTree).2.1
    (by decide) (by rfl) ⟨"https://example.com/a.m3u8", rfl, by decide⟩
    "audience" (by rfl)

/-- Counterexample for C9 as stated: the claim requires the FieldMap to
contain `date` for a successful result and a `MissingField` failure otherwise,
but on `fixturePageNoDate` — whose FieldMap has no `date` entry — the record
extractor succeeds, returning a full result with `upload_date` absent, because
the `date` access sits inside `try_get`, which swallows the `KeyError`. -/
theorem claim_C9_counterexample :
    recordRealExtract "1" fixturePageNoDate plainUrl fixtureRecordTree
      = .ok fixtureNoDateResult
    ∧ dictGet? (dataDictOf fixturePageNoDate) "date" = none := by
  constructor
  · rfl
  · rfl

theorem toList_asString (l : List Char) : (l.asString).toList = l := rfl

theorem asString_toList (s : String) : (s.toList).asString = s := rfl

theorem mem_of_getLast?Eq {l : List Char} {a : Char} (h : l.getLast? = some a) :
    a ∈ l := by
  obtain ⟨hne, hEq⟩ := List.mem_getLast?_eq_getLast (Option.mem_def.mpr h)
  rw [hEq]
  exact List.getLast_mem hne

theorem dropWhile_append_of_ne {p : Char → Bool} (x y : List Char)
    (h : List.dropWhile p x ≠ []) :
    List.dropWhile p (x ++ y) = List.dropWhile p x ++ y := by
  induction x with
  | nil => simp at h
  | cons c r ih =>
    by_cases hc : p c = true
    · simp only [List.cons_append, List.dropWhile_cons, hc, if_true] at h ⊢
      exact ih h
    · have hc2 : p c = false := by
        cases hpc : p c
        · rfl
        · exact absurd hpc hc
      simp [List.dropWhile_cons, hc2]

theorem sanMatchHere_decomp (l : List Char) (h : sanMatchHere l = true) :
    ∃ w1 w2, (∀ c ∈ w1, isPySpace c = true) ∧ (∀ c ∈ w2, isPySpace c = true) ∧
      l = w1 ++ ('さ' :: 'ん' :: w2) := by
  unfold sanMatchHere at h
  split at h
  · rename_i w2 heq
    refine ⟨l.takeWhile isPySpace, w2, ?_, ?_, ?_⟩
    · exact fun c hc => List.mem_takeWhile_imp hc
    · exact fun c hc => List.all_eq_true.mp h c hc
    · rw [← heq]
      exact (List.takeWhile_append_dropWhile isPySpace l).symm
  · exact Bool.noConfusion h

theorem sanMatchHere_of_decomp (w1 w2 : List Char)
    (h1 : ∀ c ∈ w1, isPySpace c = true) (h2 : ∀ c ∈ w2, isPySpace c = true) :
    sanMatchHere (w1 ++ ('さ' :: 'ん' :: w2)) = true := by
  unfold sanMatchHere
  rw [dropWhile_append_of_all w1 _ h1]
  exact List.all_eq_true.mpr h2

theorem rstripSanAux_of_match {l : List Char} (h : sanMatchHere l = true) :
    rstripSanAux l = [] := by
  cases l with
  | nil => rfl
  | cons c r => simp [rstripSanAux, h]

theorem rstripSanAux_cons_of_not (x : Char) (r : List Char)
    (h : sanMatchHere (x :: r) = false) :
    rstripSanAux (x :: r) = x :: rstripSanAux r := by
  simp [rstripSanAux, h]

theorem sanMatchHere_false_of (t w1 w2 : List Char) (a : Char)
    (hga : t.getLast? = some a) (hwa : isPySpace a = false)
    (h1 : ∀ c ∈ w1, isPySpace c = true) (h2 : ∀ c ∈ w2, isPySpace c = true) :
    sanMatchHere (t ++ (w1 ++ ('さ' :: 'ん' :: w2))) = false := by
  cases hm : sanMatchHere (t ++ (w1 ++ ('さ' :: 'ん' :: w2))) with
  | false => rfl
  | true =>
    exfalso
    obtain ⟨u1, u2, hu1, hu2, heq⟩ := sanMatchHere_decomp _ hm
    have hfil := congrArg (List.filter (fun c => !isPySpace c)) heq
    have fe : ∀ (w : List Char), (∀ c ∈ w, isPySpace c = true) →
        List.filter (fun c => !isPySpace c) w = [] := by
      intro w hw
      apply List.filter_eq_nil_iff.mpr
      intro c hc
      simp [hw c hc]
    simp only [List.filter_append, List.filter_cons, fe w1 h1, fe w2 h2,
      fe u1 hu1, fe u2 hu2] at hfil
    have hsa : (!isPySpace 'さ') = true := rfl
    have hn : (!isPySpace 'ん') = true := rfl
    simp only [hsa, hn, if_true] at hfil
    have hlen := congrArg List.length hfil
    simp at hlen
    have hws := hlen a (mem_of_getLast?Eq hga)
    rw [hwa] at hws
    exact Bool.noConfusion hws

theorem rstripSanAux_strip (a w1 w2 : List Char)
    (h1 : ∀ c ∈ w1, isPySpace c = true) (h2 : ∀ c ∈ w2, isPySpace c = true)
    (ha : ∀ c, a.getLast? = some c → isPySpace c = false) :
    rstripSanAux (a ++ (w1 ++ ('さ' :: 'ん' :: w2))) = a := by
  induction a with
  | nil =>
    simp only [List.nil_append]
    exact rstripSanAux_of_match (sanMatchHere_of_decomp w1 w2 h1 h2)
  | cons x a' ih =>
    have hne : x :: a' ≠ [] := List.cons_ne_nil x a'
    have hgl : (x :: a').getLast? = some ((x :: a').getLast hne) :=
      List.getLast?_eq_getLast_of_ne_nil hne
    have hlast : isPySpace ((x :: a').getLast hne) = false := ha _ hgl
    have hfalse : sanMatchHere ((x :: a') ++ (w1 ++ ('さ' :: 'ん' :: w2))) = false :=
      sanMatchHere_false_of (x :: a') w1 w2 _ hgl hlast h1 h2
    rw [List.cons_append] at hfalse ⊢
    rw [rstripSanAux_cons_of_not _ _ hfalse]
    have ha' : ∀ c, a'.getLast? = some c → isPySpace c = false := by
      intro c hc
      apply ha
      cases a' with
      | nil => exact absurd hc (by simp)
      | cons y a'' =>
        rw [List.getLast?_cons_cons]
        exact hc
    rw [ih ha']

theorem rstripSanAux_id (l : List Char) (h : endsWithSanWsList l = false) :
    rstripSanAux l = l := by
  induction l with
  | nil => rfl
  | cons c r ih =>
    have hm : sanMatchHere (c :: r) = false := by
      cases hmc : sanMatchHere (c :: r) with
      | false => rfl
      | true =>
        exfalso
        obtain ⟨u1, u2, hu1, hu2, heq⟩ := sanMatchHere_decomp _ hmc
        unfold endsWithSanWsList at h
        rw [heq, List.reverse_append] at h
        have hrev : ('さ' :: 'ん' :: u2).reverse = u2.reverse ++ ['ん', 'さ'] := by
          simp
        rw [hrev, List.append_assoc] at h
        rw [dropWhile_append_of_all u2.reverse _
          (fun c hc => hu2 c (List.mem_reverse.mp hc))] at h
        simp [List.dropWhile_cons, show isPySpace 'ん' = false from rfl] at h
    rw [rstripSanAux_cons_of_not _ _ hm]
    have hr : endsWithSanWsList r = false := by
      cases hrc : endsWithSanWsList r with
      | false => rfl
      | true =>
        exfalso
        unfold endsWithSanWsList at hrc h
        split at hrc
        · rename_i x heq2
          have hne2 : r.reverse.dropWhile isPySpace ≠ [] := by
            rw [heq2]
            simp
          rw [show (c :: r).reverse = r.reverse ++ [c] by simp] at h
          rw [dropWhile_append_of_ne _ _ hne2, heq2] at h
          simp at h
        · exact Bool.noConfusion hrc
    rw [ih hr]

/-- C5 (amended): the `user_name` post-processing removes a trailing polite
suffix `さん` together with any whitespace immediately preceding it AND any
whitespace following it up to the end of the string (the regex is
`\s*さん\s*$`); strings whose content, ignoring trailing whitespace, does not
end in `さん` are unchanged.  In particular `箱の「中の人」さん` maps to
`箱の「中の人」` and `ＮＡＮＡ` maps to itself. -/
theorem claim_C5_user_name_strip :
    (∀ (a w1 w2 : List Char),
      (∀ c ∈ w1, isPySpace c = true) → (∀ c ∈ w2, isPySpace c = true) →
      (∀ c, a.getLast? = some c → isPySpace c = false) →
      rstripSan (a ++ (w1 ++ ('さ' :: 'ん' :: w2))).asString = a.asString)
    ∧ (∀ s : String, endsWithSanWsList s.toList = false → rstripSan s = s)
    ∧ rstripSan "箱の「中の人」さん" = "箱の「中の人」"
    ∧ rstripSan "ＮＡＮＡ" = "ＮＡＮＡ" := by
  refine ⟨?_, ?_, rfl, rfl⟩
  · intro a w1 w2 h1 h2 ha
    unfold rstripSan
    rw [toList_asString]
    rw [rstripSanAux_strip a w1 w2 h1 h2 ha]
  · intro s h
    unfold rstripSan
    rw [rstripSanAux_id s.toList h]
    exact asString_toList s

/-- Witness for C5 (amended) at concrete inputs: `ＮＡＮＡ さん ` (whitespace
on both sides of the suffix) strips to `ＮＡＮＡ`, and `ＮＡＮＡ` is
unchanged. -/
theorem claim_C5_witness :
    rstripSan (("ＮＡＮＡ".toList ++ ([' '] ++ ('さ' :: 'ん' :: [' ']))).asString)
      = ("ＮＡＮＡ".toList).asString
    ∧ rstripSan "ＮＡＮＡ" = "ＮＡＮＡ" :=
  ⟨claim_C5_user_name_strip.1 "ＮＡＮＡ".toList [' '] [' ']
      (by decide) (by decide) (by decide),
    claim_C5_user_name_strip.2.1 "ＮＡＮＡ" (by rfl)⟩

/-- Counterexample for C5 as stated: the claim says strings without a trailing
`さん` token are left unchanged, but `Aさん ` — which ends in a space, not in
`さん` — is changed to `A` by the code, because the regex `\s*さん\s*$` also
consumes whitespace after the suffix. -/
theorem claim_C5_counterexample :
    endsWithSan "Aさん " = false
    ∧ rstripSan "Aさん " = "A"
    ∧ ("A" : String) ≠ "Aさん " := by
  refine ⟨rfl, rfl, ?_⟩
  decide

theorem getLast?_cons_of_ne_nil {α : Type} (a : α) {l : List α} (h : l ≠ []) :
    (a :: l).getLast? = l.getLast? := by
  cases l with
  | nil => exact absurd rfl h
  | cons b l' => exact List.getLast?_cons_cons

theorem dictGet?_eq_none_of_not_mem (d : Dict) (label : String)
    (h : label ∉ d.map Prod.fst) : dictGet? d label = none := by
  induction d with
  | nil => rfl
  | cons p rest ih =>
    simp only [List.map_cons, List.mem_cons, not_or] at h
    have hp : ¬ p.fst = label := fun hq => h.1 hq.symm
    simpa [dictGet?, hp] using ih h.2

theorem foldl_dictUpdate_lookup (clean : String → String) (label : String) :
    ∀ (ms : List (String × String)) (d0 : Dict),
      dictGet? (ms.foldl (fun d m => dictUpdate d m.fst (clean m.snd)) d0) label =
        ((ms.filter (fun m => decide (m.fst = label))).getLast?).elim
          (dictGet? d0 label) (fun m => some (clean m.snd)) := by
  intro ms
  induction ms with
  | nil =>
    intro d0
    rfl
  | cons m ms ih =>
    obtain ⟨mk, mv⟩ := m
    intro d0
    rw [List.foldl_cons]
    rw [ih (dictUpdate d0 mk (clean mv))]
    by_cases hm : mk = label
    · subst hm
      rw [List.filter_cons_of_pos (by simp)]
      cases hfl : (ms.filter (fun m => decide (m.fst = mk))) with
      | nil =>
        have h1 : ([((mk, mv) : String × String)]).getLast? = some (mk, mv) := rfl
        rw [h1]
        simp only [Option.elim, List.getLast?_nil]
        exact dictGet?_dictUpdate_self d0 mk (clean mv)
      | cons q qs =>
        rw [getLast?_cons_of_ne_nil _ (List.cons_ne_nil q qs)]
        have h2 : (q :: qs).getLast? = some ((q :: qs).getLast (List.cons_ne_nil q qs)) :=
          List.getLast?_eq_getLast_of_ne_nil _
        rw [h2]
        rfl
    · rw [List.filter_cons_of_neg (by simp [hm])]
      rw [dictGet?_dictUpdate_ne d0 mk (clean mv) label (fun hq => hm hq.symm)]

theorem keys_nodup_dictUpdate (d : Dict) (k v : String)
    (h : (d.map Prod.fst).Nodup) : ((dictUpdate d k v).map Prod.fst).Nodup := by
  unfold dictUpdate
  split
  · have : (d.map (fun p => if p.fst = k then (p.fst, v) else p)).map Prod.fst
        = d.map Prod.fst := by
      rw [List.map_map]
      apply List.map_congr_left
      intro p _
      by_cases hp : p.fst = k <;> simp [hp]
    rw [this]
    exact h
  · rename_i hany
    rw [List.map_append]
    rw [List.nodup_append]
    refine ⟨h, by simp, ?_⟩
    intro x hx
    simp only [List.map_cons, List.map_nil, List.mem_singleton]
    intro hk
    subst hk
    rw [Bool.not_eq_true] at hany
    have : ∃ p ∈ d, p.fst = x := by
      obtain ⟨p, hp, hpx⟩ := List.mem_map.mp hx
      exact ⟨p, hp, hpx⟩
    obtain ⟨p, hp, hpx⟩ := this
    have := List.any_eq_false.mp hany p hp
    simp [hpx] at this

theorem rawFieldDict_keys_nodup (clean : String → String)
    (ms : List (String × String)) : ((rawFieldDict clean ms).map Prod.fst).Nodup := by
  unfold rawFieldDict
  have gen : ∀ (d0 : Dict), (d0.map Prod.fst).Nodup →
      ((ms.foldl (fun d m => dictUpdate d m.fst (clean m.snd)) d0).map Prod.fst).Nodup := by
    induction ms with
    | nil => intro d0 h; exact h
    | cons m ms ih =>
      intro d0 h
      rw [List.foldl_cons]
      exact ih _ (keys_nodup_dictUpdate d0 m.fst (clean m.snd) h)
  exact gen [] (by simp)

theorem dictGet?_filterCollapse (d : Dict) (label : String)
    (h : (d.map Prod.fst).Nodup) :
    dictGet? (filterCollapse d) label =
      match dictGet? d label with
      | none => none
      | some v => if v = "" then none else some (collapseWs v) := by
  induction d with
  | nil => rfl
  | cons p rest ih =>
    simp only [List.map_cons, List.nodup_cons] at h
    have ihr := ih h.2
    by_cases hv : p.snd = ""
    · have hfc : filterCollapse (p :: rest) = filterCollapse rest := by
        simp [filterCollapse, List.filterMap_cons, hv]
      rw [hfc, ihr]
      by_cases hp : p.fst = label
      · have hnone : dictGet? rest label = none := by
          apply dictGet?_eq_none_of_not_mem
          rw [← hp]
          exact h.1
        rw [hnone]
        simp [dictGet?, hp, hv]
      · simp [dictGet?, hp]
    · have hfc : filterCollapse (p :: rest)
          = (p.fst, collapseWs p.snd) :: filterCollapse rest := by
        simp [filterCollapse, List.filterMap_cons, hv]
      rw [hfc]
      by_cases hp : p.fst = label
      · simp [dictGet?, hp, hv]
      · simp only [dictGet?, if_neg hp]
        rw [ihr]

/-- C4: for every page and cleaning function, the FieldMap built by the two
dict comprehensions is determined by the matches of the field regex as the
claim states: an entry for a label comes from the last match with that label
in source order, its content HTML-cleaned; the entry is dropped when the
cleaned value is empty, and otherwise every whitespace run in it is collapsed
to a single space.  The two closed conjuncts evaluate the pipeline (with the
modelled `clean_html`) on pages exercising a repeated label (the later match
wins), a whitespace-only value (dropped), tag stripping inside a value, and
whitespace collapsing. -/
theorem claim_C4_field_map :
    (∀ (clean : String → String) (page : String) (label : String),
      dictGet? (buildDataDict clean page) label =
        match ((findFieldMatches page.toList).filter
            (fun m => decide (m.fst = label))).getLast? with
        | none => none
        | some m => if clean m.snd = "" then none else some (collapseWs (clean m.snd)))
    ∧ dataDictOf "<div class=\"a\">x</div><div class=\"a\">y</div><p class=\"b\"> \n</p>"
        = [("a", "y")]
    ∧ dataDictOf "<p class=\"z\">a<br>\n<b>bold</b> c</p>" = [("z", "a bold c")] := by
  refine ⟨?_, rfl, rfl⟩
  intro clean page label
  unfold buildDataDict
  rw [dictGet?_filterCollapse _ _ (rawFieldDict_keys_nodup clean _)]
  unfold rawFieldDict
  rw [foldl_dictUpdate_lookup clean label (findFieldMatches page.toList) []]
  cases hfl : ((findFieldMatches page.toList).filter
      (fun m => decide (m.fst = label))).getLast? with
  | none => simp [Option.elim, dictGet?]
  | some m => simp [Option.elim]

end Damtomo
